import Mathlib

/-!
# Verification of the `ska_dbi` database-interface layer

Shallow embedding, in Lean 4, of the row-fetch/insert abstraction layer of the
`ska_dbi` repository (files `ska_dbi/DBI.py`, the legacy `Ska/DBI/DBI.py`,
`ska_dbi/sqsh.py` and `ska_dbi/common.py`), together with theorems settling the
frozen claims about it.

Modelling conventions:

* SQL text is a `List Char` (a Python `str` is a sequence of characters); the
  `";\n"`-split of `DBI.execute` is embedded as `splitSemiNewline`.
* Scalar cell values are the inductive `Val`; a numpy-value-to-native
  conversion (`numpy.tolist`, which the code wraps in `_denumpy`) is an
  abstract parameter `conv : Val → Option Val`, where `none` models "the
  conversion is unavailable or raises".
* The underlying sqlite / Sybase driver is an external collaborator.  A cursor
  that has executed a query is modelled by its `description` column list
  (`cols : List String`) and its pending rows (`rows : List (List Val)`);
  `cursor.fetchone()` returning `None` at exhaustion and Python truthiness of a
  returned row tuple are both captured by stopping at an empty row / end of
  list.
* Side effects that the claims talk about (statements handed to the driver,
  commits, cursor closes) are recorded as an explicit event trace `List Ev`.
* The generator returned by `DBI.fetch` is embedded by an explicit step
  function `genNext` (one `next()` call) plus `genRun` (iterating the
  generator to exhaustion); `fetchone` consumes exactly one step and abandons
  the generator, exactly as `next(self.fetch(...))` does.
* The filesystem used by credential resolution is a function
  `String → Option String` (path to contents, `none` = missing/unreadable) or
  `String → Bool` (existence test), matching how the code only ever reads one
  file.
-/

/-- A scalar database cell value (sqlite storage classes, as far as the claims
need them). -/
inductive Val where
  | intV : Int → Val
  | textV : String → Val
  | nullV : Val
deriving DecidableEq

/-- The two backend kinds of `Ska/DBI/DBI.py` (`supported_dbis = ('sqlite', 'sybase')`);
`ska_dbi/DBI.py` keeps only the sqlite branch. -/
inductive Dbi where
  | sqlite : Dbi
  | sybase : Dbi
deriving DecidableEq

/-- The container of bound values handed to `cursor.execute` alongside the SQL
text: a positional tuple (sqlite `?` placeholders) or a named mapping
(Sybase `@name` placeholders). -/
inductive BoundVals where
  | positional : List Val → BoundVals
  | named : List (String × Val) → BoundVals
deriving DecidableEq

/-- Embedding of `expr.split(';\n')` in `DBI.execute`: split a character sequence at each
(leftmost, non-overlapping) occurrence of the two-character separator
`';'` followed by `'\n'`.  A `';'` not followed by `'\n'` is an ordinary
character. -/
def splitSemiNewline : List Char → List (List Char)
  | [] => [[]]
  | [c] => [[c]]
  | c1 :: c2 :: rest =>
    if c1 = ';' ∧ c2 = '\n' then
      [] :: splitSemiNewline rest
    else
      match splitSemiNewline (c2 :: rest) with
      | [] => [[c1]]
      | p :: ps => (c1 :: p) :: ps

/-- Python `sep.join(parts)`: interleave the separator between the parts.  The
inverse direction of the split, used to state that `splitSemiNewline` cuts the
text exactly at separator occurrences and loses nothing. -/
def joinSep (sep : List Char) : List (List Char) → List Char
  | [] => []
  | [p] => p
  | p :: ps => p ++ sep ++ joinSep sep ps

/-- The `(subexpr, vals)` argument pairs built by the loop of `DBI.execute`:
one `cursor.execute` call per sub-statement, the same bound values for each. -/
def executeArgs (expr : List Char) (vals : Option BoundVals) :
    List (List Char × Option BoundVals) :=
  (splitSemiNewline expr).map (fun subexpr => (subexpr, vals))

/-- The commit decision of `DBI.execute`:
`if (commit is None and self.autocommit) or commit:`.  `commit : Option Bool`
models the Python `None`/`False`/`True` argument. -/
def commitCond (autocommit : Bool) (commit : Option Bool) : Bool :=
  match commit with
  | none => autocommit
  | some b => b

/-- Observable side effects of the fetch/insert layer: a statement handed to
`self.cursor.execute`, a `self.conn.commit()`, a `self.cursor.close()`. -/
inductive Ev where
  | execStmt : List Char → Ev
  | commitEv : Ev
  | cursorCloseEv : Ev
deriving DecidableEq

/-- Event trace of one `DBI.execute(expr, vals, commit)` call: one
`execStmt` per `';\n'`-separated sub-statement, then a commit when
`commitCond` holds. -/
def executeEvs (autocommit : Bool) (commit : Option Bool) (expr : List Char) :
    List Ev :=
  (splitSemiNewline expr).map Ev.execStmt
    ++ (if commitCond autocommit commit then [Ev.commitEv] else [])

/-- Embedding of `dict(zip(cols, vals, strict=False))` in `DBI.fetch`: pair each cursor
description column with the corresponding tuple element, truncating at the
shorter sequence. -/
def rowDict (cols : List String) (vals : List Val) : List (String × Val) :=
  cols.zip vals

/-- State of the suspended generator returned by `DBI.fetch`: the cursor
description columns and the rows the cursor has not yet yielded. -/
structure FetchGen where
  cols : List String
  pending : List (List Val)
deriving DecidableEq

/-- One `next()` call on the running `DBI.fetch` generator: `vals =
self.cursor.fetchone()`; a truthy (non-empty) row is wrapped as a dict and
yielded with no side effect; `None`/falsy ends the loop, committing first when
`self.autocommit` and closing the cursor (`StopIteration`, modelled as
`none`). -/
def genNext (autocommit : Bool) (g : FetchGen) :
    Option (List (String × Val)) × List Ev × FetchGen :=
  match g.pending with
  | [] =>
    (none, (if autocommit then [Ev.commitEv] else []) ++ [Ev.cursorCloseEv],
      ⟨g.cols, []⟩)
  | r :: rest =>
    if r.isEmpty then
      (none, (if autocommit then [Ev.commitEv] else []) ++ [Ev.cursorCloseEv],
        ⟨g.cols, rest⟩)
    else
      (some (rowDict g.cols r), [], ⟨g.cols, rest⟩)

/-- Events of the code that runs before the first `yield` of `DBI.fetch`:
`self.execute(expr, vals, commit=False)`. -/
def fetchStartEvs (autocommit : Bool) (expr : List Char) : List Ev :=
  executeEvs autocommit (some false) expr

/-- Iterating the `DBI.fetch` generator to exhaustion (the `for row in
db.fetch(...)` pattern): the yielded row dicts and the trailing
commit-if-autocommit / cursor-close events of its loop. -/
def genRun (autocommit : Bool) (cols : List String) :
    List (List Val) → List (List (String × Val)) × List Ev
  | [] => ([], (if autocommit then [Ev.commitEv] else []) ++ [Ev.cursorCloseEv])
  | r :: rest =>
    if r.isEmpty then
      ([], (if autocommit then [Ev.commitEv] else []) ++ [Ev.cursorCloseEv])
    else
      ((rowDict cols r) :: (genRun autocommit cols rest).1,
        (genRun autocommit cols rest).2)

/-- Full run of `DBI.fetch`, execute events included: result rows and trace. -/
def fetchIterate (autocommit : Bool) (expr : List Char) (cols : List String)
    (rows : List (List Val)) : List (List (String × Val)) × List Ev :=
  ((genRun autocommit cols rows).1,
    fetchStartEvs autocommit expr ++ (genRun autocommit cols rows).2)

/-- Embedding of `DBI.fetchone`: `val = next(self.fetch(expr, vals)); self.cursor.close();
return val`, with `StopIteration` caught and turned into `None`.  Exactly one
generator step runs; on a yielded row the generator is abandoned (its
exhaustion branch never executes) and `fetchone` itself closes the cursor. -/
def fetchone (autocommit : Bool) (expr : List Char) (cols : List String)
    (rows : List (List Val)) : Option (List (String × Val)) × List Ev :=
  match genNext autocommit ⟨cols, rows⟩ with
  | (some d, evs1, _) =>
    (some d, fetchStartEvs autocommit expr ++ evs1 ++ [Ev.cursorCloseEv])
  | (none, evs1, _) =>
    (none, fetchStartEvs autocommit expr ++ evs1)

/-- Result value of `DBI.fetchall`: a numpy record array
(`numpy.rec.fromrecords(vals, names=cols)`, a single columnar table over
the query's projection columns) or a Python list of row dicts. -/
inductive FetchallResult where
  | recarray : List String → List (List Val) → FetchallResult
  | dicts : List (List (String × Val)) → FetchallResult
deriving DecidableEq

/-- Embedding of `DBI.fetchall`: `self.execute(expr, vals, commit=False)`, materialize all
rows, commit when `self.autocommit`, close the cursor; then
`if self.numpy and vals:` return a record array, else the list
`[dict(zip(cols, x, strict=False)) for x in vals]`. -/
def fetchall (numpy autocommit : Bool) (expr : List Char) (cols : List String)
    (rows : List (List Val)) : FetchallResult × List Ev :=
  let evs := executeEvs autocommit (some false) expr
    ++ (if autocommit then [Ev.commitEv] else []) ++ [Ev.cursorCloseEv]
  if numpy && !rows.isEmpty then
    (FetchallResult.recarray cols rows, evs)
  else
    (FetchallResult.dicts (rows.map (rowDict cols)), evs)

/-- Embedding of `_denumpy(x)`, that is `try: return x.tolist() except: return x`.  The conversion
attempt is `conv`; `none` models "no `tolist` attribute or the call raised"
(the bare `except` swallows every error), in which case the original value is
returned unchanged. -/
def denumpy (conv : Val → Option Val) (x : Val) : Val :=
  match conv x with
  | some y => y
  | none => x

/-- Embedding of `sorted(row.keys())`: the row's column names in ascending lexicographic
(string) order.  Distinct duplicates cannot arise from a mapping's keys, and
`≤` on `String` is antisymmetric, so any sorted permutation is the unique
Python `sorted` result. -/
def sortStrings (l : List String) : List String :=
  List.insertionSort (· ≤ ·) l

/-- Embedding of `row[x]` for a column name `x` taken from the row itself. -/
def lookupRow (row : List (String × Val)) (k : String) : Val :=
  (row.lookup k).getD Val.nullV

/-- The `vals` tuple of `DBI.insert`:
`tuple(_denumpy(row[x]) for x in cols) if self.numpy else
tuple(row[x] for x in cols)`, with `cols = sorted(row.keys())`. -/
def insertBoundVals (numpy : Bool) (conv : Val → Option Val)
    (row : List (String × Val)) : List Val :=
  let cols := sortStrings (row.map Prod.fst)
  if numpy then
    cols.map (fun x => denumpy conv (lookupRow row x))
  else
    cols.map (fun x => lookupRow row x)

/-- Embedding of `",".join(l)`. -/
def joinComma (l : List String) : String :=
  String.intercalate "," l

/-- Embedding of `"INSERT %s INTO %s (%s) VALUES (%s)" % (replace_str, tablename,
','.join(cols), ','.join(colrepls))` with
`replace_str = replace and 'OR REPLACE' or ''`. -/
def insertStr (replace : Bool) (tablename : String)
    (cols colrepls : List String) : String :=
  "INSERT " ++ (if replace then "OR REPLACE" else "") ++ " INTO " ++ tablename
    ++ " (" ++ joinComma cols ++ ") VALUES (" ++ joinComma colrepls ++ ")"

/-- Failure mode of `DBI.insert`: the spec's `UnsupportedOperationError`
(raised in the source as
`ValueError('Using replace=True not allowed for Sybase DBI')`). -/
inductive InsertError where
  | unsupportedReplace : InsertError
deriving DecidableEq

/-- Embedding of `DBI.insert(row, tablename, replace)` up to the single
`self.execute(cmd, vals, commit=commit)` call: the one SQL statement built and
the bound-value container handed to the driver, or the error.  For sqlite the
placeholders are `('?',) * len(cols)` and the values stay a positional tuple;
for Sybase, `replace=True` raises before anything is built, otherwise the
placeholders are `'@'+x` per column and `vals = dict(zip(colrepls, vals))`.
An `Except.error` result means no statement reaches the driver. -/
def insertCmd (dbi : Dbi) (numpy : Bool) (conv : Val → Option Val)
    (row : List (String × Val)) (tablename : String) (replace : Bool) :
    Except InsertError (String × BoundVals) :=
  let cols := sortStrings (row.map Prod.fst)
  let vals := insertBoundVals numpy conv row
  match dbi with
  | Dbi.sqlite =>
    let colrepls := List.replicate cols.length "?"
    Except.ok (insertStr replace tablename cols colrepls,
      BoundVals.positional vals)
  | Dbi.sybase =>
    if replace then
      Except.error InsertError.unsupportedReplace
    else
      let colrepls := cols.map (fun x => "@" ++ x)
      Except.ok (insertStr replace tablename cols colrepls,
        BoundVals.named (colrepls.zip vals))

/-- Python `str.isspace` on the ASCII whitespace characters recognised by
`str.strip()`. -/
def pyIsSpace (c : Char) : Bool :=
  c == ' ' || c == '\t' || c == '\n' || c == '\r' || c == '\x0b' || c == '\x0c'

/-- Python `s.strip()`: drop leading and trailing whitespace. -/
def pyStrip (s : String) : String :=
  String.mk (((s.data.dropWhile pyIsSpace).reverse.dropWhile pyIsSpace).reverse)

/-- Credential-resolution failure of `Ska/DBI/DBI.py` and `ska_dbi/common.py`:
`NoPasswordError`. -/
inductive CredError where
  | noPasswordError : CredError
deriving DecidableEq

/-- Embedding of `os.path.join(authdir, '%s-%s-%s' % (self.server, self.database,
self.user))`: the credential file read by the Sybase branch of
`DBI.__init__`. -/
def passwdFilePath (authdir server database user : String) : String :=
  authdir ++ "/" ++ server ++ "-" ++ database ++ "-" ++ user

/-- Password resolution of the Sybase branch of `DBI.__init__`
(`Ska/DBI/DBI.py`): a supplied password is used as is; otherwise the
credential file is read and stripped, and an `IOError` (here: `fs` returns
`none`, the file is missing or unreadable) becomes `NoPasswordError`. -/
def dbiSybasePasswd (fs : String → Option String) (passwd : Option String)
    (authdir server database user : String) : Except CredError String :=
  match passwd with
  | some p => Except.ok p
  | none =>
    match fs (passwdFilePath authdir server database user) with
    | some contents => Except.ok (pyStrip contents)
    | none => Except.error CredError.noPasswordError

/-- Embedding of the path `Path(authdir) / ("sqsh-" + server + "-" + database + "-" + user)`: the
sqshrc credential file inferred by `Sqsh.__init__`. -/
def sqshrcFilePath (authdir server database user : String) : String :=
  authdir ++ "/sqsh-" ++ server ++ "-" ++ database ++ "-" ++ user

/-- The credential part of `Sqsh.__init__` (`ska_dbi/sqsh.py`): when neither a
password nor a sqshrc file is supplied, the inferred sqshrc file is used if it
exists, else `NoPasswordError` is raised; otherwise the supplied values stand.
Returns the resolved `(passwd, sqshrc)` pair. -/
def sqshInit (fsExists : String → Bool) (passwd sqshrc : Option String)
    (authdir server database user : String) :
    Except CredError (Option String × Option String) :=
  match passwd, sqshrc with
  | none, none =>
    if fsExists (sqshrcFilePath authdir server database user) then
      Except.ok (none, some (sqshrcFilePath authdir server database user))
    else
      Except.error CredError.noPasswordError
  | p, rc => Except.ok (p, rc)

/-- Embedding of `Sqsh.fetchall(query)` after the lines are captured: `len(outlines) <= 1`
(header only, or nothing) yields `None`; otherwise the lines are parsed as CSV
by the external `astropy.table.Table.read`, modelled by the parameter
`tableRead`. -/
def sqshFetchallLines {T : Type} (tableRead : List String → T)
    (outlines : List String) : Option T :=
  if outlines.length ≤ 1 then none else some (tableRead outlines)

/-- Embedding of `Sqsh.fetchone(query)` after the lines are captured: `len(outlines) <= 1`
yields `None`; otherwise the first row (`tab[0]`, modelled by `firstRow`) of
the parsed table. -/
def sqshFetchoneLines {T R : Type} (tableRead : List String → T)
    (firstRow : T → R) (outlines : List String) : Option R :=
  if outlines.length ≤ 1 then none else some (firstRow (tableRead outlines))

/-- The connection handle owned by a `DBI` object, as far as the context
manager claims need it: whether `self.conn` is still usable. -/
structure Conn where
  isOpen : Bool
deriving DecidableEq

/-- Embedding of `self.conn.close()`. -/
def connClose (c : Conn) : Conn :=
  { c with isOpen := false }

/-- Embedding of `DBI.__exit__(exc_type, exc_value, traceback)`: closes the connection and
implicitly returns `None`, so an in-flight exception propagates after the
close.  The exception information is not consulted. -/
def dbiExit (c : Conn) : Conn :=
  connClose c

/-- The sqlite driver error raised by any call on a closed connection
(`sqlite3.ProgrammingError: Cannot operate on a closed database`), the
behaviour `test_context_manager` asserts with `pytest.raises`. -/
inductive DriverError where
  | closedConnection : DriverError
deriving DecidableEq

/-- A database call through the connection (e.g. `self.conn.cursor()` at the
top of `DBI.execute`): succeeds only on an open connection. -/
def connCursorExec (c : Conn) (stmt : List Char) : Except DriverError Conn :=
  if c.isOpen then Except.ok c else Except.error DriverError.closedConnection

/-- Python `with DBI(...) as db: body` semantics for a `body` that threads the
connection and either returns a value or raises: `__enter__` returns `self`
unchanged, the body runs, and `__exit__` runs on every exit path — normal or
exceptional — closing the connection; the body's outcome (value or exception)
is then propagated unchanged. -/
def withDBI {E A : Type} (body : Conn → Except E A × Conn) (c : Conn) :
    Except E A × Conn :=
  (((body c).1), dbiExit ((body c).2))

/-! ## Helper lemmas about the statement splitter -/

/-- The first part produced by the splitter starts the input text. -/
theorem splitSemiNewline_head (s : List Char) :
    ∃ p ps, splitSemiNewline s = p :: ps ∧ ∃ t, p ++ t = s := by
  induction s using splitSemiNewline.induct with
  | case1 => exact ⟨[], [], rfl, [], rfl⟩
  | case2 c => exact ⟨[c], [], rfl, [], rfl⟩
  | case3 c1 c2 rest h ih =>
    exact ⟨[], splitSemiNewline rest, by simp [splitSemiNewline, h], c1 :: c2 :: rest, rfl⟩
  | case4 c1 c2 rest h heq ih =>
    obtain ⟨p', ps', hsplit, _⟩ := ih
    rw [hsplit] at heq; exact absurd heq (by simp)
  | case5 c1 c2 rest h p ps heq ih =>
    obtain ⟨p', ps', hsplit, t, ht⟩ := ih
    rw [heq] at hsplit
    injection hsplit with e1 e2
    subst e1; subst e2
    refine ⟨c1 :: p, ps, ?_, t, by rw [List.cons_append, ht]⟩
    simp only [splitSemiNewline]
    rw [if_neg h, heq]

/-- The splitter always produces at least one part (Python `split` never
returns an empty list). -/
theorem splitSemiNewline_ne_nil (s : List Char) : splitSemiNewline s ≠ [] := by
  obtain ⟨p, ps, hsplit, _⟩ := splitSemiNewline_head s
  simp [hsplit]

/-- Re-joining the parts with the separator restores the input text: the
splitter cuts exactly at separator occurrences and loses nothing. -/
theorem joinSep_splitSemiNewline (s : List Char) :
    joinSep [';', '\n'] (splitSemiNewline s) = s := by
  induction s using splitSemiNewline.induct with
  | case1 => rfl
  | case2 c => rfl
  | case3 c1 c2 rest h ih =>
    obtain ⟨rfl, rfl⟩ := h
    simp only [splitSemiNewline,
      if_pos (⟨rfl, rfl⟩ : (';' : Char) = ';' ∧ ('\n' : Char) = '\n')]
    obtain ⟨p, ps, hsplit, _⟩ := splitSemiNewline_head rest
    rw [hsplit]
    rw [hsplit] at ih
    simp only [joinSep, List.nil_append] at ih ⊢
    rw [ih]
    rfl
  | case4 c1 c2 rest h heq ih =>
    exact absurd heq (splitSemiNewline_ne_nil _)
  | case5 c1 c2 rest h p ps heq ih =>
    rw [heq] at ih
    simp only [splitSemiNewline]
    rw [if_neg h, heq]
    cases ps with
    | nil =>
      simp only [joinSep] at ih ⊢
      rw [ih]
    | cons q qs =>
      simp only [joinSep, List.cons_append, List.append_assoc, List.nil_append] at ih ⊢
      rw [ih]

/-- No part produced by the splitter still contains the separator: the text is
cut at every occurrence. -/
theorem splitSemiNewline_parts (s : List Char) :
    ∀ p ∈ splitSemiNewline s, ¬ ([';', '\n'] <:+: p) := by
  induction s using splitSemiNewline.induct with
  | case1 =>
    intro p hp hinf
    obtain ⟨u, v, huv⟩ := hinf
    have hpe : p = [] := by simpa [splitSemiNewline] using hp
    subst hpe
    simp at huv
  | case2 c =>
    intro p hp hinf
    obtain ⟨u, v, huv⟩ := hinf
    have hpe : p = [c] := by simpa [splitSemiNewline] using hp
    subst hpe
    apply_fun List.length at huv
    simp at huv
    omega
  | case3 c1 c2 rest h ih =>
    intro p hp
    simp only [splitSemiNewline, if_pos h, List.mem_cons] at hp
    rcases hp with rfl | hp
    · intro hinf
      obtain ⟨u, v, huv⟩ := hinf
      simp at huv
    · exact ih p hp
  | case4 c1 c2 rest h heq ih =>
    exact absurd heq (splitSemiNewline_ne_nil _)
  | case5 c1 c2 rest h p ps heq ih =>
    intro q hq
    rw [heq] at ih
    have hsplitform : splitSemiNewline (c1 :: c2 :: rest) = (c1 :: p) :: ps := by
      simp only [splitSemiNewline]
      rw [if_neg h, heq]
    rw [hsplitform, List.mem_cons] at hq
    rcases hq with rfl | hq
    · intro hinf
      obtain ⟨u, v, huv⟩ := hinf
      cases u with
      | nil =>
        have huv' : ';' :: '\n' :: v = c1 :: p := by simpa using huv
        injection huv' with hc1 hp'
        obtain ⟨p', ps', hsplit, t, ht⟩ := splitSemiNewline_head (c2 :: rest)
        rw [heq] at hsplit
        injection hsplit with e1 e2
        subst e1
        rw [← hp'] at ht
        have ht' : '\n' :: (v ++ t) = c2 :: rest := by simpa using ht
        injection ht' with hc2 _
        exact h ⟨hc1.symm, hc2.symm⟩
      | cons a u' =>
        have huv' : a :: (u' ++ ';' :: '\n' :: v) = c1 :: p := by simpa using huv
        injection huv' with _ hp'
        exact ih p (List.mem_cons_self _ _) ⟨u', v, by simpa using hp'⟩
    · exact ih q (List.mem_cons_of_mem _ hq)

/-- A text with no occurrence of the separator is returned whole: in
particular a `';'` not followed by `'\n'` never splits the text. -/
theorem splitSemiNewline_single_of_no_sep (s : List Char)
    (hn : ¬ ([';', '\n'] <:+: s)) : splitSemiNewline s = [s] := by
  induction s using splitSemiNewline.induct with
  | case1 => rfl
  | case2 c => rfl
  | case3 c1 c2 rest h ih =>
    exact absurd ⟨[], rest, by rw [h.1, h.2]; rfl⟩ hn
  | case4 c1 c2 rest h heq ih =>
    exact absurd heq (splitSemiNewline_ne_nil _)
  | case5 c1 c2 rest h p ps heq ih =>
    have hn' : ¬ ([';', '\n'] <:+: (c2 :: rest)) := by
      intro hinf
      obtain ⟨u, v, huv⟩ := hinf
      exact hn ⟨c1 :: u, v, by rw [← huv]; rfl⟩
    have hone := ih hn'
    rw [heq] at hone
    injection hone with e1 e2
    subst e1; subst e2
    simp only [splitSemiNewline]
    rw [if_neg h, heq]

/-- Conversely, a text containing the separator is really split: the split is
never the whole text. -/
theorem splitSemiNewline_ne_single_of_sep (s : List Char)
    (hs : [';', '\n'] <:+: s) : splitSemiNewline s ≠ [s] := by
  induction s using splitSemiNewline.induct with
  | case1 =>
    obtain ⟨u, v, huv⟩ := hs
    simp at huv
  | case2 c =>
    obtain ⟨u, v, huv⟩ := hs
    apply_fun List.length at huv
    simp at huv
    omega
  | case3 c1 c2 rest h ih =>
    simp only [splitSemiNewline, if_pos h]
    intro hcontra
    injection hcontra with e1 _
    exact List.noConfusion e1
  | case4 c1 c2 rest h heq ih =>
    exact absurd heq (splitSemiNewline_ne_nil _)
  | case5 c1 c2 rest h p ps heq ih =>
    obtain ⟨u, v, huv⟩ := hs
    cases u with
    | nil =>
      have huv' : ';' :: '\n' :: v = c1 :: c2 :: rest := by simpa using huv
      injection huv' with hc1 huv''
      injection huv'' with hc2 _
      exact absurd ⟨hc1.symm, hc2.symm⟩ h
    | cons a u' =>
      have huv' : a :: (u' ++ ';' :: '\n' :: v) = c1 :: c2 :: rest := by simpa using huv
      injection huv' with _ huv''
      have ihx := ih ⟨u', v, by simpa using huv''⟩
      simp only [splitSemiNewline]
      rw [if_neg h, heq]
      intro hcontra
      injection hcontra with e1 e2
      injection e1 with _ e3
      exact ihx (by rw [heq, e3, e2])

/-! ## Claim theorems -/

/-- C2: `DBI.execute` splits its SQL text exactly at occurrences of the
two-character separator `';'` followed by `'\n'` (joining the parts with the
separator restores the text, and no part retains an occurrence); a text
without that two-character sequence — in particular one whose every `';'` is
not followed by `'\n'` — is not split; and the same bound values are attached
to every resulting sub-statement. -/
theorem execute_splits_on_semicolon_newline (expr : List Char) (vals : Option BoundVals) :
    joinSep [';', '\n'] (splitSemiNewline expr) = expr
    ∧ (∀ p ∈ splitSemiNewline expr, ¬ ([';', '\n'] <:+: p))
    ∧ ((¬ ([';', '\n'] <:+: expr)) → splitSemiNewline expr = [expr])
    ∧ (∀ a ∈ executeArgs expr vals, a.2 = vals) := by
  refine ⟨joinSep_splitSemiNewline expr, splitSemiNewline_parts expr,
    splitSemiNewline_single_of_no_sep expr, ?_⟩
  intro a ha
  obtain ⟨s, hs, rfl⟩ := List.mem_map.mp ha
  rfl

/-- Witness for C2 at concrete inputs: `"a;b"` (a `';'` not followed by
`'\n'`) is not split, and the bound values are attached to the (single)
sub-statement of `"s"`. -/
theorem execute_splits_on_semicolon_newline_witness :
    splitSemiNewline ['a', ';', 'b'] = [['a', ';', 'b']]
    ∧ ((['s'], some (BoundVals.positional [Val.intV 1])) :
        List Char × Option BoundVals).2 = some (BoundVals.positional [Val.intV 1]) :=
  ⟨(execute_splits_on_semicolon_newline ['a', ';', 'b'] none).2.2.1 (by decide),
   (execute_splits_on_semicolon_newline ['s'] (some (BoundVals.positional [Val.intV 1]))).2.2.2
     (['s'], some (BoundVals.positional [Val.intV 1])) (by decide)⟩

/-- C1: for every row and table name, `DBI.insert` builds exactly one SQL
statement over the alphabetically sorted keys of the row, of shape
`INSERT [OR REPLACE] INTO tablename (cols) VALUES (placeholders)`; on the
sqlite backend the placeholders are `'?'` repeated once per column and the
values are bound as a positional tuple in sorted-column order; on the Sybase
backend the placeholders are `'@' + columnName` and the values are bound as a
named mapping from placeholder to value. -/
theorem insert_builds_one_sorted_statement (numpy : Bool) (conv : Val → Option Val)
    (row : List (String × Val)) (tablename : String) (replace : Bool) :
    List.Sorted (· ≤ ·) (sortStrings (row.map Prod.fst))
    ∧ (sortStrings (row.map Prod.fst)).Perm (row.map Prod.fst)
    ∧ insertCmd Dbi.sqlite numpy conv row tablename replace =
        Except.ok
          (insertStr replace tablename (sortStrings (row.map Prod.fst))
            (List.replicate (sortStrings (row.map Prod.fst)).length "?"),
           BoundVals.positional
             ((sortStrings (row.map Prod.fst)).map
               (fun c => if numpy then denumpy conv (lookupRow row c) else lookupRow row c)))
    ∧ insertCmd Dbi.sybase numpy conv row tablename false =
        Except.ok
          (insertStr false tablename (sortStrings (row.map Prod.fst))
            ((sortStrings (row.map Prod.fst)).map (fun c => "@" ++ c)),
           BoundVals.named
             ((sortStrings (row.map Prod.fst)).map
               (fun c => ("@" ++ c,
                 if numpy then denumpy conv (lookupRow row c) else lookupRow row c)))) := by
  refine ⟨List.sorted_insertionSort _ _, List.perm_insertionSort _ _, ?_, ?_⟩
  · simp only [insertCmd, insertBoundVals]
    cases numpy <;> simp
  · simp only [insertCmd, insertBoundVals, if_neg (by simp : ¬ (false = true))]
    cases numpy <;> simp [List.zip_map']

/-- C3: for every row and table name, `insert` with `replace=True` on the
Sybase backend (which does not support replace) fails with the spec's
`UnsupportedOperationError`; the error is the whole result, so no statement is
ever built or handed to `execute` and nothing reaches the driver. -/
theorem insert_replace_on_sybase_errors (numpy : Bool) (conv : Val → Option Val)
    (row : List (String × Val)) (tablename : String) :
    insertCmd Dbi.sybase numpy conv row tablename true =
      Except.error InsertError.unsupportedReplace := by
  rfl

/-- C4: on a query whose result set is empty, `fetchone` returns `none`
(never an error), iterating the `fetch` generator yields no element at all,
and `fetchall` returns an empty sequence (never an error). -/
theorem fetch_empty_result_is_benign (numpy autocommit : Bool) (expr : List Char)
    (cols : List String) :
    (fetchone autocommit expr cols []).1 = none
    ∧ (fetchIterate autocommit expr cols []).1 = []
    ∧ (fetchall numpy autocommit expr cols []).1 = FetchallResult.dicts [] := by
  refine ⟨?_, ?_, ?_⟩
  · simp [fetchone, genNext]
  · simp [fetchIterate, genRun]
  · simp [fetchall]

/-- C5 counterexample: the claim that the numpy result-shape flag alone
determines the `fetchall` shape — a record array whenever the flag is set,
"including when the result set is empty" — is false: with the flag set and an
empty result set, `fetchall` returns the list shape (an empty list of row
dicts), because `if self.numpy and vals:` is falsy for an empty `vals`. -/
theorem fetchall_numpy_empty_counterexample :
    ¬ ∀ (cols : List String) (rows : List (List Val)),
        ∃ c r, (fetchall true true [] cols rows).1 = FetchallResult.recarray c r := by
  intro hclaim
  obtain ⟨c, r, hcr⟩ := hclaim ["a"] []
  rw [show (fetchall true true [] ["a"] []).1 = FetchallResult.dicts [] from rfl] at hcr
  exact FetchallResult.noConfusion hcr

/-- C5 amended: the `fetchall` result shape is determined by the numpy flag
together with emptiness of the result set: with the flag set and a non-empty
result it is the single columnar record array over the query's projection
columns; with the flag unset, or with an empty result set, it is the ordered
list of name-to-value row mappings (empty in the empty case). -/
theorem fetchall_shape_by_numpy_flag (numpy autocommit : Bool) (expr : List Char)
    (cols : List String) (rows : List (List Val)) :
    (numpy = true → rows ≠ [] →
      (fetchall numpy autocommit expr cols rows).1 = FetchallResult.recarray cols rows)
    ∧ (numpy = false ∨ rows = [] →
      (fetchall numpy autocommit expr cols rows).1 =
        FetchallResult.dicts (rows.map (rowDict cols))) := by
  constructor
  · rintro rfl hne
    simp [fetchall, List.isEmpty_iff, hne]
  · rintro (rfl | rfl) <;> simp [fetchall]

/-- Witness for the amended C5 at concrete inputs: one non-empty numpy-flag
result (record array) and one flag-unset result (list of dicts). -/
theorem fetchall_shape_by_numpy_flag_witness :
    (fetchall true true ['q'] ["a"] [[Val.intV 1]]).1 =
      FetchallResult.recarray ["a"] [[Val.intV 1]]
    ∧ (fetchall false true ['q'] ["a"] [[Val.intV 1]]).1 =
      FetchallResult.dicts ([[Val.intV 1]].map (rowDict ["a"])) :=
  ⟨(fetchall_shape_by_numpy_flag true true ['q'] ["a"] [[Val.intV 1]]).1 rfl (by decide),
   (fetchall_shape_by_numpy_flag false true ['q'] ["a"] [[Val.intV 1]]).2 (Or.inl rfl)⟩

/-- C6 counterexample: the claim that every value bound through the insert
path is first subjected to the to-native-scalar conversion attempt is false:
when the connection's numpy flag is unset, `DBI.insert` binds the values
unchanged without attempting `_denumpy` — here a value the conversion would
rewrite to `99` is bound as the original `1`. -/
theorem insert_denumpy_counterexample :
    ¬ ∀ (numpy : Bool) (conv : Val → Option Val) (row : List (String × Val)),
        insertBoundVals numpy conv row =
          (sortStrings (row.map Prod.fst)).map
            (fun c => denumpy conv (lookupRow row c)) := by
  intro hclaim
  have h := hclaim false (fun _ => some (Val.intV 99)) [("a", Val.intV 1)]
  exact absurd h (by decide)

/-- C6 amended: when the numpy flag is set, every value bound through the
insert path is first subjected to the to-native-scalar conversion attempt;
when the flag is unset, values are bound unchanged; and the conversion attempt
never lets an error escape — when it is unavailable or fails (`conv x = none`,
the bare `except` of `_denumpy`), the original value is used unchanged. -/
theorem insert_denumpy_fallback (numpy : Bool) (conv : Val → Option Val)
    (row : List (String × Val)) (x : Val) :
    (numpy = true → insertBoundVals numpy conv row =
      (sortStrings (row.map Prod.fst)).map (fun c => denumpy conv (lookupRow row c)))
    ∧ (numpy = false → insertBoundVals numpy conv row =
      (sortStrings (row.map Prod.fst)).map (fun c => lookupRow row c))
    ∧ (conv x = none → denumpy conv x = x) := by
  refine ⟨?_, ?_, ?_⟩
  · rintro rfl; simp [insertBoundVals]
  · rintro rfl; simp [insertBoundVals]
  · intro h; simp [denumpy, h]

/-- Witness for the amended C6 at concrete inputs, exercising all three
branches with a conversion that is everywhere unavailable. -/
theorem insert_denumpy_fallback_witness :
    insertBoundVals true (fun _ => none) [("a", Val.intV 1)] =
      (sortStrings ([("a", Val.intV 1)].map Prod.fst)).map
        (fun c => denumpy (fun _ => none) (lookupRow [("a", Val.intV 1)] c))
    ∧ insertBoundVals false (fun _ => none) [("a", Val.intV 1)] =
      (sortStrings ([("a", Val.intV 1)].map Prod.fst)).map
        (fun c => lookupRow [("a", Val.intV 1)] c)
    ∧ denumpy (fun _ => none) (Val.intV 5) = Val.intV 5 :=
  ⟨(insert_denumpy_fallback true (fun _ => none) [("a", Val.intV 1)] (Val.intV 5)).1 rfl,
   (insert_denumpy_fallback false (fun _ => none) [("a", Val.intV 1)] (Val.intV 5)).2.1 rfl,
   (insert_denumpy_fallback false (fun _ => none) [("a", Val.intV 1)] (Val.intV 5)).2.2 rfl⟩

/-- C7: credential resolution reads the file
`<authdir>/<server>-<database>-<user>`; when the file is present the resolved
secret is its contents stripped of surrounding whitespace; when it is absent
(or unreadable), a Sybase connection without a supplied password fails with
`NoPasswordError`, and the sqsh shim with neither password nor sqshrc supplied
fails with `NoPasswordError` when its inferred sqshrc credential file is
absent. -/
theorem credential_resolution (fs : String → Option String) (fsExists : String → Bool)
    (authdir server database user : String) (contents : String) :
    (fs (passwdFilePath authdir server database user) = some contents →
      dbiSybasePasswd fs none authdir server database user = Except.ok (pyStrip contents))
    ∧ (fs (passwdFilePath authdir server database user) = none →
      dbiSybasePasswd fs none authdir server database user =
        Except.error CredError.noPasswordError)
    ∧ (fsExists (sqshrcFilePath authdir server database user) = false →
      sqshInit fsExists none none authdir server database user =
        Except.error CredError.noPasswordError) := by
  refine ⟨?_, ?_, ?_⟩
  · intro h; simp [dbiSybasePasswd, h]
  · intro h; simp [dbiSybasePasswd, h]
  · intro h; simp [sqshInit, h]

/-- Witness for C7 at concrete inputs: a present credential file whose
contents `" pw\n"` resolve to the stripped secret `"pw"`, an absent
credential file, and an absent sqshrc file. -/
theorem credential_resolution_witness :
    dbiSybasePasswd (fun _ => some " pw\n") none "adir" "srv" "db" "usr" = Except.ok "pw"
    ∧ dbiSybasePasswd (fun _ => none) none "adir" "srv" "db" "usr" =
        Except.error CredError.noPasswordError
    ∧ sqshInit (fun _ => false) none none "adir" "srv" "db" "usr" =
        Except.error CredError.noPasswordError := by
  refine ⟨?_,
    (credential_resolution (fun _ => none) (fun _ => false) "adir" "srv" "db" "usr" "").2.1 rfl,
    (credential_resolution (fun _ => none) (fun _ => false) "adir" "srv" "db" "usr" "").2.2 rfl⟩
  have h := (credential_resolution (fun _ => some " pw\n") (fun _ => false)
    "adir" "srv" "db" "usr" " pw\n").1 rfl
  rw [h, show pyStrip " pw\n" = "pw" from by decide]

/-- C8: for a query run through the external-process shim, when the captured
output is zero lines or exactly one line (the CSV header only), `fetchall`
and `fetchone` both return `none`, and neither raises an error. -/
theorem sqsh_header_only_is_empty (T R : Type) (tableRead : List String → T)
    (firstRow : T → R) (outlines : List String) (h : outlines.length ≤ 1) :
    sqshFetchallLines tableRead outlines = none
    ∧ sqshFetchoneLines tableRead firstRow outlines = none := by
  constructor <;> simp [sqshFetchallLines, sqshFetchoneLines, h]

/-- Witness for C8 at a concrete input: a single header-only output line. -/
theorem sqsh_header_only_is_empty_witness :
    sqshFetchallLines (fun ls => ls) ["header"] = none
    ∧ sqshFetchoneLines (fun ls => ls) (fun t => t) ["header"] = none :=
  sqsh_header_only_is_empty (List String) (List String) (fun ls => ls) (fun t => t)
    ["header"] (by decide)

/-- C9: under scoped acquisition, the underlying connection is closed on every
exit path — the body's outcome, normal value or exception, is propagated
unchanged while the connection ends closed — and consequently every subsequent
database call made through that connection fails. -/
theorem with_dbi_closes_on_every_exit (E A : Type) (body : Conn → Except E A × Conn)
    (c : Conn) :
    (withDBI body c).1 = (body c).1
    ∧ ((withDBI body c).2).isOpen = false
    ∧ ∀ stmt : List Char, connCursorExec (withDBI body c).2 stmt =
        Except.error DriverError.closedConnection := by
  refine ⟨rfl, rfl, ?_⟩
  intro stmt
  simp [connCursorExec, withDBI, dbiExit, connClose]

/-- C10: on a query with a non-empty result set, `fetchone` returns the first
row and closes the cursor without ever committing, even when autocommit is
enabled: `fetch`'s `execute` runs with `commit=False`, the generator is
abandoned after its first yield so its commit-on-exhaustion never runs, and
`fetchone` itself issues no commit — the full trace is the executed
sub-statements followed by one cursor close. -/
theorem fetchone_first_row_no_commit (autocommit : Bool) (expr : List Char)
    (cols : List String) (r : List Val) (rest : List (List Val)) (h : r ≠ []) :
    fetchone autocommit expr cols (r :: rest) =
      (some (rowDict cols r), (splitSemiNewline expr).map Ev.execStmt ++ [Ev.cursorCloseEv])
    ∧ Ev.commitEv ∉ (fetchone autocommit expr cols (r :: rest)).2 := by
  have hre : r.isEmpty = false := by simpa [List.isEmpty_iff] using h
  have hfo : fetchone autocommit expr cols (r :: rest) =
      (some (rowDict cols r),
        (splitSemiNewline expr).map Ev.execStmt ++ [Ev.cursorCloseEv]) := by
    simp [fetchone, genNext, hre, fetchStartEvs, executeEvs, commitCond]
  refine ⟨hfo, ?_⟩
  rw [hfo]
  simp

/-- Witness for C10 at a concrete input: a one-row result with autocommit
enabled. -/
theorem fetchone_first_row_no_commit_witness :
    fetchone true ['q'] ["a"] [[Val.intV 1]] =
      (some (rowDict ["a"] [Val.intV 1]),
        (splitSemiNewline ['q']).map Ev.execStmt ++ [Ev.cursorCloseEv])
    ∧ Ev.commitEv ∉ (fetchone true ['q'] ["a"] [[Val.intV 1]]).2 :=
  fetchone_first_row_no_commit true ['q'] ["a"] [Val.intV 1] [] (by decide)
